import Mathlib

/-!
Shallow embedding of the visual regression-testing scripts
(`pythonregression.py`, the baseline, and the unnamed variant script)
and proofs about their URL-reconciliation, slug derivation, capture retry
and report generation logic.

Effectful collaborators (HTTP fetch, the browser automation driver, the
filesystem) are modelled as explicit inputs: a sitemap fetch becomes a
`SitemapFetch` value, the per-attempt behaviour of the browser becomes an
`AttemptOutcome` oracle, and the success/failure of a page capture becomes
a boolean-valued function handed to the orchestrator.
-/

namespace Regression

/-! ## Python string helpers -/

/-- Model of Python's `str.strip(chars)`: remove the characters satisfying
`p` from both ends of the character list. -/
def stripChars (p : Char → Bool) (l : List Char) : List Char :=
  ((l.dropWhile p).reverse.dropWhile p).reverse

/-- Whitespace test used by Python's no-argument `str.strip()` (the
whitespace characters that can occur in sitemap `<loc>` text). -/
def isSpace (c : Char) : Bool :=
  c == ' ' || c == '\t' || c == '\n' || c == '\r'

/-- Model of Python's `str.strip()` on `<loc>` element text. -/
def pyStrip (s : String) : String :=
  String.mk (stripChars isSpace s.data)

/-- The character substitution of `str.replace('/', '_')`. -/
def slugChar (c : Char) : Char :=
  if c = '/' then '_' else c

/-- Lexicographic comparison of character lists by code point; this is the
string order used by Python's `sorted` builtin. -/
def charsLe : List Char → List Char → Bool
  | [], _ => true
  | _ :: _, [] => false
  | a :: as, b :: bs =>
    if a < b then true else if b < a then false else charsLe as bs

/-- The (non-strict) string order of Python's `sorted`. -/
def pathLe (a b : String) : Prop :=
  charsLe a.data b.data = true

instance : DecidableRel pathLe :=
  fun a b => inferInstanceAs (Decidable (charsLe a.data b.data = true))

/-- Strict version of `pathLe`: strictly ascending order. -/
def pathLt (a b : String) : Prop :=
  pathLe a b ∧ a ≠ b

/-! ## Configuration constants of the two scripts -/

/-- `SOURCE_SITE` from the configuration section (both scripts). -/
def SOURCE_SITE : String := "https://bumperdocbrooklyn.com"

/-- `TARGET_SITE` from the configuration section (both scripts). -/
def TARGET_SITE : String := "https://staging2.bumperdocbrooklyn.com"

/-- `REPORT_DIR` of the baseline script `pythonregression.py`. -/
def REPORT_DIR : String := "regression_report_bumperdoc"

/-- `REPORT_DIR` of the variant script. -/
def REPORT_DIR2 : String := "regression_reportforbumperdoc2"

/-- `RETRY_COUNT` of the baseline script. -/
def RETRY_COUNT : Nat := 2

/-! ## Sitemap fetcher -/

/-- Outcome of the HTTP GET plus XML parse that `get_sitemap_urls`
performs, as seen from inside the `try` block: either a 2xx response whose
body parsed, carrying the text of all `<loc>` elements in document order,
or one of the failure modes that raise inside the `try`. -/
inductive SitemapFetch where
  | success (locs : List String)
  | netError
  | statusError
  | parseError
deriving DecidableEq

/-- Embedding of `get_sitemap_urls`: on a parsed response it returns the
stripped `<loc>` texts in document order; every raised error — including
the `ValueError` the baseline raises itself on an empty URL list — is
caught by the `except` clause and yields `[]`. -/
def get_sitemap_urls (response : SitemapFetch) : List String :=
  match response with
  | SitemapFetch.success locs =>
    let urls := locs.map pyStrip
    if urls.isEmpty then [] else urls
  | _ => []

/-! ## Slug derivation -/

/-- Embedding of `get_path_slug`:
`path.strip('/').replace('/', '_') or 'home'`. -/
def get_path_slug (path : String) : String :=
  let r := (stripChars (fun c => c == '/') path.data).map slugChar
  if r.isEmpty then "home" else String.mk r

/-! ## URL parsing and path maps -/

/-- Scan for the `"://"` scheme separator and return what follows it. -/
def afterSchemeMarker : List Char → Option (List Char)
  | [] => none
  | ':' :: '/' :: '/' :: rest => some rest
  | _ :: rest => afterSchemeMarker rest

/-- Model of `urllib.parse.urlparse(u).path` (an external collaborator)
for the absolute URLs this program consumes: drop `scheme://host`, keep
everything up to a query or fragment delimiter. -/
def urlPath (u : String) : String :=
  match afterSchemeMarker u.data with
  | some rest =>
    String.mk ((rest.dropWhile (fun c => c != '/')).takeWhile
      (fun c => c != '?' && c != '#'))
  | none => ""

/-- A Python dict from URL path to URL, as an insertion-ordered
association list. -/
abbrev UrlMap := List (String × String)

/-- Dict assignment `m[k] = v`: overwrite in place or append. -/
def insertKV : UrlMap → String → String → UrlMap
  | [], k, v => [(k, v)]
  | (a, b) :: rest, k, v =>
    if a = k then (k, v) :: rest else (a, b) :: insertKV rest k v

/-- Dict lookup `m.get(k)`. -/
def lookupKV : UrlMap → String → Option String
  | [], _ => none
  | (a, b) :: rest, k => if a = k then some b else lookupKV rest k

/-- The key list of a map. -/
def keys (m : UrlMap) : List String :=
  m.map (fun kv => kv.1)

/-- Embedding of the dict comprehension
`{urlparse(u).path: u for u in urls}` (last-wins on duplicate paths). -/
def buildMap (urls : List String) : UrlMap :=
  urls.foldl (fun m u => insertKV m (urlPath u) u) []

/-- Embedding of `sorted(set(source_map.keys()).union(target_map.keys()))`. -/
def all_paths (source_map target_map : UrlMap) : List String :=
  List.insertionSort pathLe ((keys source_map ++ keys target_map).dedup)

/-! ## Page capture engine -/

/-- What one whole attempt of the capture procedure does, as seen by the
exception handling of `take_fullpage_screenshot`: the attempt runs to
completion, or some step raises a `WebDriverException` (automation-layer
error), or some step raises any other exception (for example an `OSError`
from writing the image file). -/
inductive AttemptOutcome where
  | success
  | webDriverError
  | otherError
deriving DecidableEq

/-- The retry loop `for attempt in range(1, RETRY_COUNT + 1)` of the
baseline `take_fullpage_screenshot`, indexed by the attempt number and the
number of attempts left.  `Except.error ()` models an exception
propagating out of the function: only `WebDriverException` is caught by
the loop body's handler, so any other exception escapes. -/
def take_go (attempts : Nat → AttemptOutcome) : Nat → Nat → Except Unit Bool
  | _, 0 => Except.ok false
  | i, n + 1 =>
    match attempts i with
    | AttemptOutcome.success => Except.ok true
    | AttemptOutcome.webDriverError => take_go attempts (i + 1) n
    | AttemptOutcome.otherError => Except.error ()

/-- Embedding of the baseline `take_fullpage_screenshot`, parametrised by
an oracle giving the outcome of each numbered attempt.  Returning
`Except.ok b` models returning the boolean `b`; `Except.error ()` models
an uncaught exception crossing the function boundary. -/
def take_fullpage_screenshot (attempts : Nat → AttemptOutcome) : Except Unit Bool :=
  take_go attempts 1 RETRY_COUNT

/-- Embedding of the variant script's `take_fullpage_screenshot`: a single
attempt inside `try ... except Exception`, so every failure — automation
or not — yields `False` and no exception ever escapes. -/
def take_fullpage_screenshot2 (outcome : AttemptOutcome) : Except Unit Bool :=
  match outcome with
  | AttemptOutcome.success => Except.ok true
  | _ => Except.ok false

/-! ## Orchestrator -/

/-- One row of the report, as assembled by `run_test`
(`report_entries.append({...})`). -/
structure ReportEntry where
  slug : String
  path : String
  source : Option String
  target : Option String
  source_failed : Bool
  target_failed : Bool
deriving DecidableEq, Repr

/-- The baseline's fallback: `if not target_urls: target_urls =
[f"{TARGET_SITE}/"]`. -/
def effective_target_urls (target_urls : List String) : List String :=
  if target_urls.isEmpty then [TARGET_SITE ++ "/"] else target_urls

/-- The body of the `for path in all_paths` loop of `run_test`, shared by
both scripts: resolve the slug and per-page image paths, attempt each
side's capture when that side's URL exists, and assemble the
`ReportEntry`.  `cap url img` is the boolean result of
`take_fullpage_screenshot(url, img)`. -/
def make_entry (report_dir : String) (source_map target_map : UrlMap)
    (cap : String → String → Bool) (path : String) : ReportEntry :=
  let slug := get_path_slug path
  let page_dir := report_dir ++ "/" ++ slug
  let source_img := page_dir ++ "/source.png"
  let target_img := page_dir ++ "/target.png"
  let source_success :=
    match lookupKV source_map path with
    | some u => cap u source_img
    | none => false
  let target_success :=
    match lookupKV target_map path with
    | some u => cap u target_img
    | none => false
  { slug := slug
    path := path
    source := if source_success then some (slug ++ "/source.png") else none
    target := if target_success then some (slug ++ "/target.png") else none
    source_failed := !source_success
    target_failed := !target_success }

/-- Embedding of the baseline `run_test` (with the target-sitemap
fallback), parametrised by the already-fetched URL lists and the capture
result function; returns the assembled report entries in loop order. -/
def run_test (source_urls target_urls : List String)
    (cap : String → String → Bool) : List ReportEntry :=
  let target_urls := effective_target_urls target_urls
  let source_map := buildMap source_urls
  let target_map := buildMap target_urls
  (all_paths source_map target_map).map
    (make_entry REPORT_DIR source_map target_map cap)

/-- Embedding of the variant script's `run_test`: identical reconciliation
and loop body, but no fallback when the target URL list is empty. -/
def run_test2 (source_urls target_urls : List String)
    (cap : String → String → Bool) : List ReportEntry :=
  let source_map := buildMap source_urls
  let target_map := buildMap target_urls
  (all_paths source_map target_map).map
    (make_entry REPORT_DIR2 source_map target_map cap)

/-! ## Report generator -/

/-- The "not available" marker line for a missing source image. -/
def missing_source_line : String :=
  "<p class=\x27missing\x27>❌ Source page not available</p>"

/-- The "not available" marker line for a missing target image. -/
def missing_target_line : String :=
  "<p class=\x27missing\x27>❌ Target page not available</p>"

/-- The source half of an entry's rendering: an `<img>` element when the
image path is present, the missing marker otherwise. -/
def sourceHtml (entry : ReportEntry) : List String :=
  match entry.source with
  | some sp => ["<img src=\x27" ++ sp ++ "\x27 alt=\x27Source\x27>"]
  | none => [missing_source_line]

/-- The target half of an entry's rendering. -/
def targetHtml (entry : ReportEntry) : List String :=
  match entry.target with
  | some tp => ["<img src=\x27" ++ tp ++ "\x27 alt=\x27Target\x27>"]
  | none => [missing_target_line]

/-- The lines `generate_html_report` appends for one entry. -/
def entryHtml (entry : ReportEntry) : List String :=
  ("<div class=\x27page\x27><h2>" ++ entry.path ++ "</h2>")
    :: "<div><label><input type=\x27checkbox\x27/> Pass</label><label><input type=\x27checkbox\x27/> Fail</label></div>"
    :: (sourceHtml entry ++ targetHtml entry ++ ["</div>"])

/-- The fixed lines `generate_html_report` starts from. -/
def report_header : List String :=
  ["<html><head><title>Visual Regression Report</title>",
   "<style>body\x7bfont-family:sans-serif\x7dimg\x7bmax-width:45%;border:1px solid #ccc;margin:10px\x7ddiv.page\x7bmargin-bottom:40px;\x7dlabel\x7bmargin-right:20px\x7d .missing\x7bcolor:red;\x7d</style>",
   "</head><body>",
   "<h1>Visual Regression Report</h1>"]

/-- The full line list the report is joined from. -/
def report_lines (entries : List ReportEntry) : List String :=
  report_header ++ (entries.map entryHtml).flatten ++ ["</body></html>"]

/-- Embedding of `generate_html_report` up to the file write: the document
text `'\n'.join(html)`. -/
def generate_html_report (entries : List ReportEntry) : String :=
  String.intercalate "\n" (report_lines entries)

/-- Boolean well-formedness of a URL path for the slug-injectivity
statement: a single leading slash, a nonempty remainder that does not end
in a slash, and no underscore anywhere. -/
def normalPath (s : String) : Bool :=
  match s.data with
  | a :: c :: cs =>
    decide (a = '/') && decide (c ≠ '/')
      && decide ((c :: cs).getLast? ≠ some '/')
      && decide ('_' ∉ c :: cs)
  | _ => false

/-- Helper for reasoning about dict lookups threaded through `foldl`:
left-biased choice on `Option`. -/
def orElseO (a b : Option String) : Option String :=
  match a with
  | some x => some x
  | none => b

end Regression

namespace Regression

/-! ## Order lemmas for the Python string sort -/

theorem charsLe_total : ∀ l₁ l₂ : List Char, charsLe l₁ l₂ = true ∨ charsLe l₂ l₁ = true := by
  intro l₁
  induction l₁ with
  | nil => intro l₂; left; rfl
  | cons a as ih =>
    intro l₂
    cases l₂ with
    | nil => right; rfl
    | cons b bs =>
      by_cases hab : a < b
      · left; simp [charsLe, hab]
      · by_cases hba : b < a
        · right; simp [charsLe, hba]
        · cases ih bs with
          | inl h => left; simp [charsLe, hab, hba, h]
          | inr h => right; simp [charsLe, hab, hba, h]

theorem charsLe_trans : ∀ l₁ l₂ l₃ : List Char,
    charsLe l₁ l₂ = true → charsLe l₂ l₃ = true → charsLe l₁ l₃ = true := by
  intro l₁
  induction l₁ with
  | nil => intro l₂ l₃ _ _; rfl
  | cons a as ih =>
    intro l₂ l₃ h₁ h₂
    cases l₂ with
    | nil => simp [charsLe] at h₁
    | cons b bs =>
      cases l₃ with
      | nil => simp [charsLe] at h₂
      | cons c cs =>
        simp only [charsLe] at h₁ h₂ ⊢
        by_cases hab : a < b
        · by_cases hbc : b < c
          · simp [lt_trans hab hbc]
          · by_cases hcb : c < b
            · simp [hbc, hcb] at h₂
            · have hbceq : b = c := le_antisymm (not_lt.mp hcb) (not_lt.mp hbc)
              subst hbceq
              simp [hab]
        · by_cases hba : b < a
          · simp [hab, hba] at h₁
          · have habe : a = b := le_antisymm (not_lt.mp hba) (not_lt.mp hab)
            subst habe
            simp only [hab, hba, if_neg, ite_false] at h₁
            by_cases hac : a < c
            · simp [hac]
            · by_cases hca : c < a
              · simp [hac, hca] at h₂
              · have hace : a = c := le_antisymm (not_lt.mp hca) (not_lt.mp hac)
                subst hace
                simp only [hac, hca, if_neg, ite_false] at h₂ ⊢
                exact ih bs cs h₁ h₂

end Regression

namespace Regression

/-! ## Lemmas about stripping and the slug substitution -/

theorem head?_mem {l : List Char} {c : Char} (h : l.head? = some c) : c ∈ l := by
  cases l with
  | nil => simp at h
  | cons a t =>
    simp only [List.head?_cons, Option.some.injEq] at h
    subst h
    exact List.mem_cons_self a t

theorem dropWhile_eq_self_of_head (p : Char → Bool) (l : List Char)
    (h : ∀ c, l.head? = some c → p c = false) : l.dropWhile p = l := by
  cases l with
  | nil => rfl
  | cons a t => simp [List.dropWhile_cons, h a rfl]

theorem stripChars_eq_self (p : Char → Bool) (l : List Char)
    (h : ∀ c ∈ l, p c = false) : stripChars p l = l := by
  unfold stripChars
  rw [dropWhile_eq_self_of_head p l (fun c hc => h c (head?_mem hc))]
  rw [dropWhile_eq_self_of_head p l.reverse
    (fun c hc => h c (List.mem_reverse.mp (head?_mem hc)))]
  exact List.reverse_reverse l

theorem stripChars_slash_normal (c : Char) (cs : List Char) (hc : c ≠ '/')
    (hl : (c :: cs).getLast? ≠ some '/') :
    stripChars (fun x => x == '/') ('/' :: c :: cs) = c :: cs := by
  unfold stripChars
  have h1 : List.dropWhile (fun x => x == '/') ('/' :: c :: cs) = c :: cs := by
    simp [List.dropWhile_cons, hc]
  rw [h1, dropWhile_eq_self_of_head _ _ ?_, List.reverse_reverse]
  intro x hx
  rw [List.head?_reverse] at hx
  have hxs : x ≠ '/' := fun e => hl (e ▸ hx)
  simp [hxs]

theorem slugChar_ne_slash (x : Char) : (slugChar x == '/') = false := by
  by_cases h : x = '/' <;> simp [slugChar, h]

theorem map_slugChar_no_slash (l : List Char) :
    ∀ x ∈ l.map slugChar, (x == '/') = false := by
  intro x hx
  rcases List.mem_map.mp hx with ⟨y, _, rfl⟩
  exact slugChar_ne_slash y

theorem map_slugChar_id (l : List Char) (h : ∀ x ∈ l, (x == '/') = false) :
    l.map slugChar = l := by
  induction l with
  | nil => rfl
  | cons a t ih =>
    have ha : a ≠ '/' := by
      intro e
      have := h a (List.mem_cons_self a t)
      rw [e] at this
      simp at this
    have hA : slugChar a = a := if_neg ha
    simp only [List.map_cons, hA, List.cons.injEq, true_and]
    exact ih (fun x hx => h x (List.mem_cons_of_mem _ hx))

theorem slugChar_inj (a b : Char) (ha : a ≠ '_') (hb : b ≠ '_')
    (h : slugChar a = slugChar b) : a = b := by
  unfold slugChar at h
  by_cases h1 : a = '/' <;> by_cases h2 : b = '/'
  · rw [h1, h2]
  · rw [if_pos h1, if_neg h2] at h
    exact absurd h.symm hb
  · rw [if_neg h1, if_pos h2] at h
    exact absurd h ha
  · rwa [if_neg h1, if_neg h2] at h

theorem map_slugChar_inj : ∀ l₁ l₂ : List Char, '_' ∉ l₁ → '_' ∉ l₂ →
    l₁.map slugChar = l₂.map slugChar → l₁ = l₂ := by
  intro l₁
  induction l₁ with
  | nil =>
    intro l₂ _ _ h
    cases l₂ with
    | nil => rfl
    | cons b s => simp at h
  | cons a t ih =>
    intro l₂ h1 h2 h
    cases l₂ with
    | nil => simp at h
    | cons b s =>
      simp only [List.map_cons, List.cons.injEq] at h
      obtain ⟨hh, ht⟩ := h
      have ha : a ≠ '_' := fun e => h1 (e ▸ List.mem_cons_self a t)
      have hb : b ≠ '_' := fun e => h2 (e ▸ List.mem_cons_self b s)
      have hab := slugChar_inj a b ha hb hh
      subst hab
      rw [ih s (fun m => h1 (List.mem_cons_of_mem _ m))
        (fun m => h2 (List.mem_cons_of_mem _ m)) ht]

end Regression

namespace Regression

/-! ## Lemmas about the path-to-URL maps -/

theorem lookup_insertKV (m : UrlMap) (k v k' : String) :
    lookupKV (insertKV m k v) k' = if k' = k then some v else lookupKV m k' := by
  induction m with
  | nil =>
    by_cases h : k' = k
    · simp [insertKV, lookupKV, h]
    · simp [insertKV, lookupKV, h, Ne.symm h]
  | cons kv rest ih =>
    obtain ⟨a, b⟩ := kv
    by_cases hak : a = k
    · subst hak
      by_cases h : k' = a
      · simp [insertKV, lookupKV, h]
      · simp [insertKV, lookupKV, h, Ne.symm h]
    · by_cases hak' : a = k'
      · subst hak'
        simp [insertKV, lookupKV, hak]
      · simp [insertKV, lookupKV, hak, hak', ih]

theorem mem_keys_insertKV (m : UrlMap) (k v x : String) :
    x ∈ keys (insertKV m k v) ↔ x = k ∨ x ∈ keys m := by
  induction m with
  | nil => simp [insertKV, keys]
  | cons kv rest ih =>
    obtain ⟨a, b⟩ := kv
    by_cases hak : a = k
    · subst hak
      simp [insertKV, keys]
    · simp only [insertKV, if_neg hak, keys, List.map_cons, List.mem_cons]
      rw [show (List.map (fun kv => kv.1) (insertKV rest k v)) = keys (insertKV rest k v) from rfl]
      rw [ih]
      tauto

theorem mem_keys_of_lookup (m : UrlMap) (k u : String)
    (h : lookupKV m k = some u) : k ∈ keys m := by
  induction m with
  | nil => simp [lookupKV] at h
  | cons kv rest ih =>
    obtain ⟨a, b⟩ := kv
    by_cases hak : a = k
    · subst hak
      simp [keys]
    · simp only [lookupKV, if_neg hak] at h
      simp only [keys, List.map_cons, List.mem_cons]
      exact Or.inr (ih h)

theorem orElseO_none (a : Option String) : orElseO a none = a := by
  cases a <;> rfl

theorem orElseO_some_absorb (x : Option String) (y : String) (z : Option String) :
    orElseO (orElseO x (some y)) z = orElseO x (some y) := by
  cases x <;> rfl

theorem getLast?_cons_or (a : String) (l : List String) :
    (a :: l).getLast? = orElseO l.getLast? (some a) := by
  induction l generalizing a with
  | nil => rfl
  | cons b t ih => rw [List.getLast?_cons_cons, ih b, orElseO_some_absorb]

theorem lookup_foldl (urls : List String) (p : String) : ∀ m : UrlMap,
    lookupKV (urls.foldl (fun m u => insertKV m (urlPath u) u) m) p
      = orElseO ((urls.filter (fun u => urlPath u == p)).getLast?) (lookupKV m p) := by
  induction urls with
  | nil => intro m; rfl
  | cons u us ih =>
    intro m
    rw [List.foldl_cons, ih]
    by_cases h : urlPath u = p
    · have hf : List.filter (fun u => urlPath u == p) (u :: us)
          = u :: us.filter (fun v => urlPath v == p) := by
        simp [List.filter_cons, h]
      rw [hf, getLast?_cons_or, orElseO_some_absorb, lookup_insertKV, if_pos h.symm]
    · have hf : List.filter (fun u => urlPath u == p) (u :: us)
          = us.filter (fun v => urlPath v == p) := by
        simp [List.filter_cons, h]
      rw [hf, lookup_insertKV, if_neg (fun e => h e.symm)]

theorem lookup_buildMap_eq (urls : List String) (p : String) :
    lookupKV (buildMap urls) p = (urls.filter (fun u => urlPath u == p)).getLast? := by
  unfold buildMap
  rw [lookup_foldl]
  rw [show lookupKV [] p = none from rfl, orElseO_none]

theorem mem_keys_foldl (urls : List String) (x : String) : ∀ m : UrlMap,
    x ∈ keys (urls.foldl (fun m u => insertKV m (urlPath u) u) m)
      ↔ x ∈ keys m ∨ ∃ u ∈ urls, urlPath u = x := by
  induction urls with
  | nil => intro m; simp
  | cons u us ih =>
    intro m
    rw [List.foldl_cons, ih]
    rw [mem_keys_insertKV]
    simp only [List.mem_cons]
    constructor
    · rintro (⟨rfl | hm⟩ | ⟨v, hv, hvx⟩)
      · exact Or.inr ⟨u, Or.inl rfl, rfl⟩
      · exact Or.inl hm
      · exact Or.inr ⟨v, Or.inr hv, hvx⟩
    · rintro (hm | ⟨v, hv | hv, hvx⟩)
      · exact Or.inl (Or.inr hm)
      · subst hv; exact Or.inl (Or.inl hvx.symm)
      · exact Or.inr ⟨v, hv, hvx⟩

theorem mem_keys_buildMap (urls : List String) (x : String) :
    x ∈ keys (buildMap urls) ↔ ∃ u ∈ urls, urlPath u = x := by
  unfold buildMap
  rw [mem_keys_foldl]
  simp [keys]

/-! ## Lemmas about the reconciled path list -/

theorem mem_all_paths (m₁ m₂ : UrlMap) (x : String) :
    x ∈ all_paths m₁ m₂ ↔ x ∈ keys m₁ ∨ x ∈ keys m₂ := by
  unfold all_paths
  rw [List.mem_insertionSort, List.mem_dedup, List.mem_append]

theorem sorted_all_paths (m₁ m₂ : UrlMap) : List.Sorted pathLe (all_paths m₁ m₂) := by
  haveI : IsTotal String pathLe := ⟨fun a b => charsLe_total a.data b.data⟩
  haveI : IsTrans String pathLe := ⟨fun a b c => charsLe_trans a.data b.data c.data⟩
  exact List.sorted_insertionSort pathLe _

theorem nodup_all_paths (m₁ m₂ : UrlMap) : (all_paths m₁ m₂).Nodup := by
  unfold all_paths
  exact ((List.perm_insertionSort pathLe _).nodup_iff).mpr (List.nodup_dedup _)

theorem sortedLt_all_paths (m₁ m₂ : UrlMap) : List.Sorted pathLt (all_paths m₁ m₂) :=
  (sorted_all_paths m₁ m₂).and (nodup_all_paths m₁ m₂)

/-! ## Lemmas about the orchestrator loop -/

theorem make_entry_path (d : String) (m₁ m₂ : UrlMap) (cap : String → String → Bool)
    (p : String) : (make_entry d m₁ m₂ cap p).path = p := rfl

theorem run_test_paths (source_urls target_urls : List String)
    (cap : String → String → Bool) :
    (run_test source_urls target_urls cap).map (fun e => e.path)
      = all_paths (buildMap source_urls) (buildMap (effective_target_urls target_urls)) := by
  unfold run_test
  rw [List.map_map]
  have h : ((fun e : ReportEntry => e.path) ∘
      make_entry REPORT_DIR (buildMap source_urls)
        (buildMap (effective_target_urls target_urls)) cap) = id :=
    funext fun p => rfl
  rw [h, List.map_id]

theorem run_test2_paths (source_urls target_urls : List String)
    (cap : String → String → Bool) :
    (run_test2 source_urls target_urls cap).map (fun e => e.path)
      = all_paths (buildMap source_urls) (buildMap target_urls) := by
  unfold run_test2
  rw [List.map_map]
  have h : ((fun e : ReportEntry => e.path) ∘
      make_entry REPORT_DIR2 (buildMap source_urls) (buildMap target_urls) cap) = id :=
    funext fun p => rfl
  rw [h, List.map_id]

end Regression

namespace Regression

/-- C1: for every pair of source and target URL lists processed by a run of
either orchestrator, the sequence of `ReportEntry.path` values is strictly
ascending (hence each path appears exactly once) and its members are
exactly the union of the source path keys and the target path keys (for
the baseline, the keys of the post-fallback target mapping). -/
theorem run_test_report_paths_sorted_union (source_urls target_urls : List String)
    (cap : String → String → Bool) :
    (((run_test source_urls target_urls cap).map (fun e => e.path)).Sorted pathLt ∧
      ((run_test source_urls target_urls cap).map (fun e => e.path)).Nodup ∧
      ∀ x : String,
        x ∈ (run_test source_urls target_urls cap).map (fun e => e.path) ↔
          (x ∈ keys (buildMap source_urls)
            ∨ x ∈ keys (buildMap (effective_target_urls target_urls)))) ∧
    (((run_test2 source_urls target_urls cap).map (fun e => e.path)).Sorted pathLt ∧
      ((run_test2 source_urls target_urls cap).map (fun e => e.path)).Nodup ∧
      ∀ x : String,
        x ∈ (run_test2 source_urls target_urls cap).map (fun e => e.path) ↔
          (x ∈ keys (buildMap source_urls) ∨ x ∈ keys (buildMap target_urls))) := by
  constructor
  · rw [run_test_paths]
    exact ⟨sortedLt_all_paths _ _, nodup_all_paths _ _, fun x => mem_all_paths _ _ x⟩
  · rw [run_test2_paths]
    exact ⟨sortedLt_all_paths _ _, nodup_all_paths _ _, fun x => mem_all_paths _ _ x⟩

/-- C2 counterexample: in the baseline script a non-automation error during
the first attempt (for example a file-write failure) is not caught — the
capture function propagates the exception (`Except.error ()`) instead of
returning the failure boolean `False`, contrary to the claim. -/
theorem screenshot_other_error_raises :
    take_fullpage_screenshot (fun _ => AttemptOutcome.otherError) = Except.error () ∧
    take_fullpage_screenshot (fun _ => AttemptOutcome.otherError) ≠ Except.ok false := by
  exact ⟨rfl, fun h => nomatch h⟩

/-- C2 amended: in the baseline script, automation-layer errors are retried
up to the attempt ceiling (2), with success on any attempt returning
`True` and exhaustion returning `False`; a non-automation error ends the
run of the function by raising, on whichever attempt it occurs.  In the
variant script the single attempt is wrapped in a catch-all handler, so
every non-success yields an immediate `False` and no exception escapes. -/
theorem take_fullpage_screenshot_behavior (attempts : Nat → AttemptOutcome) :
    (attempts 1 = AttemptOutcome.success →
      take_fullpage_screenshot attempts = Except.ok true) ∧
    (attempts 1 = AttemptOutcome.webDriverError → attempts 2 = AttemptOutcome.success →
      take_fullpage_screenshot attempts = Except.ok true) ∧
    (attempts 1 = AttemptOutcome.webDriverError → attempts 2 = AttemptOutcome.webDriverError →
      take_fullpage_screenshot attempts = Except.ok false) ∧
    (attempts 1 = AttemptOutcome.otherError →
      take_fullpage_screenshot attempts = Except.error ()) ∧
    (attempts 1 = AttemptOutcome.webDriverError → attempts 2 = AttemptOutcome.otherError →
      take_fullpage_screenshot attempts = Except.error ()) ∧
    (∀ o : AttemptOutcome,
      take_fullpage_screenshot2 o = Except.ok (decide (o = AttemptOutcome.success))) := by
  refine ⟨fun h1 => ?_, fun h1 h2 => ?_, fun h1 h2 => ?_, fun h1 => ?_, fun h1 h2 => ?_,
    fun o => ?_⟩
  · simp [take_fullpage_screenshot, RETRY_COUNT, take_go, h1]
  · simp [take_fullpage_screenshot, RETRY_COUNT, take_go, h1, h2]
  · simp [take_fullpage_screenshot, RETRY_COUNT, take_go, h1, h2]
  · simp [take_fullpage_screenshot, RETRY_COUNT, take_go, h1]
  · simp [take_fullpage_screenshot, RETRY_COUNT, take_go, h1, h2]
  · cases o <;> rfl

/-- C2 witness: the behaviour theorem applied to an oracle whose first
attempt succeeds. -/
theorem take_fullpage_screenshot_behavior_witness :
    take_fullpage_screenshot (fun _ => AttemptOutcome.success) = Except.ok true :=
  (take_fullpage_screenshot_behavior (fun _ => AttemptOutcome.success)).1 rfl

/-- C4 counterexample: the variant script has no fallback — with a
nonempty source sitemap and an empty target sitemap its reconciled path
set does not contain the target root path `/`. -/
theorem target_fallback_absent_in_variant :
    (run_test2 ["https://a.com/x"] [] (fun _ _ => false)).map (fun e => e.path) = ["/x"] ∧
    "/" ∉ (run_test2 ["https://a.com/x"] [] (fun _ _ => false)).map (fun e => e.path) := by
  exact ⟨by decide, by decide⟩

/-- C4 amended: in the baseline script, a run whose target sitemap fetch
returned zero URLs substitutes the synthetic fallback entry
`TARGET_SITE + "/"`, so the reconciled path set contains the target root
path `/`; the variant script has no such fallback. -/
theorem target_fallback_root_path (source_urls : List String)
    (cap : String → String → Bool) :
    "/" ∈ (run_test source_urls [] cap).map (fun e => e.path) := by
  rw [run_test_paths, mem_all_paths]
  right
  rw [mem_keys_buildMap]
  refine ⟨TARGET_SITE ++ "/", ?_, ?_⟩
  · simp [effective_target_urls]
  · decide

/-- C6: slug derivation is a pure function (computing it twice gives the
same value) and is idempotent, and the two concrete cases of the spec
hold: `slug("") = "home"` and `slug("/a/b/") = "a_b"`. -/
theorem slug_deterministic_idempotent :
    (∀ p : String, get_path_slug p = get_path_slug p ∧
      get_path_slug (get_path_slug p) = get_path_slug p) ∧
    get_path_slug "" = "home" ∧ get_path_slug "/a/b/" = "a_b" := by
  refine ⟨fun p => ⟨rfl, ?_⟩, by decide, by decide⟩
  by_cases h : ((stripChars (fun c => c == '/') p.data).map slugChar).isEmpty
  · have hp : get_path_slug p = "home" := by
      simp only [get_path_slug]
      rw [if_pos h]
    rw [hp]
    decide
  · have hp : get_path_slug p
        = String.mk ((stripChars (fun c => c == '/') p.data).map slugChar) := by
      simp only [get_path_slug]
      rw [if_neg h]
    rw [hp]
    have hns := map_slugChar_no_slash (stripChars (fun c => c == '/') p.data)
    simp only [get_path_slug]
    rw [stripChars_eq_self _ _ hns, map_slugChar_id _ hns, if_neg h]

/-- C7: for a parsed sitemap response carrying N `<loc>` texts the fetcher
returns exactly those N texts, stripped, in document order; for an empty
response, a network error, a non-2xx status or a parse failure it returns
zero URLs (and, the embedding being total, it does so without raising). -/
theorem sitemap_fetcher_results :
    (∀ locs : List String,
      get_sitemap_urls (SitemapFetch.success locs) = locs.map pyStrip ∧
      (get_sitemap_urls (SitemapFetch.success locs)).length = locs.length) ∧
    get_sitemap_urls (SitemapFetch.success []) = [] ∧
    get_sitemap_urls SitemapFetch.netError = [] ∧
    get_sitemap_urls SitemapFetch.statusError = [] ∧
    get_sitemap_urls SitemapFetch.parseError = [] := by
  refine ⟨fun locs => ?_, rfl, rfl, rfl, rfl⟩
  have h : get_sitemap_urls (SitemapFetch.success locs) = locs.map pyStrip := by
    simp only [get_sitemap_urls]
    by_cases h : (locs.map pyStrip).isEmpty
    · rw [if_pos h]
      exact (List.isEmpty_iff.mp h).symm
    · rw [if_neg h]
  exact ⟨h, by rw [h, List.length_map]⟩

/-- C9: the path-to-URL mapping built from a URL sequence resolves every
path to the last URL in the sequence having that path (last-wins), and in
particular duplicate paths are accepted, not rejected. -/
theorem url_map_last_wins (urls : List String) (p : String) :
    lookupKV (buildMap urls) p = (urls.filter (fun u => urlPath u == p)).getLast? :=
  lookup_buildMap_eq urls p

end Regression

namespace Regression

/-! ## Slug injectivity on well-formed paths -/

theorem normalPath_shape (s : String) (h : normalPath s = true) :
    ∃ c cs, s.data = '/' :: c :: cs ∧ c ≠ '/' ∧
      (c :: cs).getLast? ≠ some '/' ∧ '_' ∉ c :: cs := by
  obtain ⟨d⟩ := s
  rcases d with _ | ⟨a, _ | ⟨c, cs⟩⟩
  · simp [normalPath] at h
  · simp [normalPath] at h
  · simp only [normalPath, Bool.and_eq_true, decide_eq_true_eq] at h
    obtain ⟨⟨⟨h1, h2⟩, h3⟩, h4⟩ := h
    subst h1
    exact ⟨c, cs, rfl, h2, h3, h4⟩

theorem get_path_slug_of_normal (s : String) (c : Char) (cs : List Char)
    (hd : s.data = '/' :: c :: cs) (hc : c ≠ '/')
    (hl : (c :: cs).getLast? ≠ some '/') :
    get_path_slug s = String.mk ((c :: cs).map slugChar) := by
  simp only [get_path_slug, hd, stripChars_slash_normal c cs hc hl]
  rfl

/-- C5 counterexample: the slug derivation is not injective on
deduplicated path sets — the distinct paths `/a/b` and `/a_b` share the
slug `a_b`, and the distinct paths `""` and `/` share the slug `home`. -/
theorem slug_collision :
    get_path_slug "/a/b" = get_path_slug "/a_b" ∧ ("/a/b" : String) ≠ "/a_b" ∧
    get_path_slug "" = get_path_slug "/" ∧ ("" : String) ≠ "/" := by
  refine ⟨by decide, by decide, by decide, by decide⟩

/-- C5 amended: the slug derivation is injective on sets of paths in
normal form (exactly one leading slash, a nonempty remainder with no
trailing slash and no underscore); outside this fragment distinct paths
can collide, as `/a/b` versus `/a_b` shows. -/
theorem slug_injective_on_normal_paths (p q : String)
    (hp : normalPath p = true) (hq : normalPath q = true)
    (h : get_path_slug p = get_path_slug q) : p = q := by
  obtain ⟨c, cs, hpd, hc, hl, hm⟩ := normalPath_shape p hp
  obtain ⟨d, ds, hqd, hd2, hl2, hm2⟩ := normalPath_shape q hq
  rw [get_path_slug_of_normal p c cs hpd hc hl,
    get_path_slug_of_normal q d ds hqd hd2 hl2] at h
  have hmap : (c :: cs).map slugChar = (d :: ds).map slugChar := by
    injection h
  have hlist := map_slugChar_inj _ _ hm hm2 hmap
  exact String.ext (by rw [hpd, hqd, hlist])

/-- C5 witness: the amended injectivity applied at the normal-form path
`/ab`. -/
theorem slug_injective_on_normal_paths_witness :
    normalPath "/ab" = true ∧ ("/ab" : String) = "/ab" :=
  ⟨by decide, slug_injective_on_normal_paths "/ab" "/ab" (by decide) (by decide) rfl⟩

end Regression

namespace Regression

theorem make_entry_source_none (d : String) (m₁ m₂ : UrlMap)
    (cap : String → String → Bool) (p u : String) (h₁ : lookupKV m₁ p = some u)
    (h₂ : cap u (d ++ "/" ++ get_path_slug p ++ "/source.png") = false) :
    (make_entry d m₁ m₂ cap p).source = none ∧
    (make_entry d m₁ m₂ cap p).source_failed = true := by
  simp [make_entry, h₁, h₂]

theorem make_entry_target_none (d : String) (m₁ m₂ : UrlMap)
    (cap : String → String → Bool) (p u : String) (h₁ : lookupKV m₂ p = some u)
    (h₂ : cap u (d ++ "/" ++ get_path_slug p ++ "/target.png") = false) :
    (make_entry d m₁ m₂ cap p).target = none ∧
    (make_entry d m₁ m₂ cap p).target_failed = true := by
  simp [make_entry, h₁, h₂]

theorem capture_failed_source_entry (d : String) (m₁ m₂ : UrlMap)
    (cap : String → String → Bool) (p u : String)
    (hs : lookupKV m₁ p = some u)
    (hc : cap u (d ++ "/" ++ get_path_slug p ++ "/source.png") = false) :
    ∃ e ∈ (all_paths m₁ m₂).map (make_entry d m₁ m₂ cap),
      e.path = p ∧ e.source = none ∧ e.source_failed = true ∧
      sourceHtml e = [missing_source_line] ∧
      missing_source_line ∈ report_lines ((all_paths m₁ m₂).map (make_entry d m₁ m₂ cap)) := by
  have hmem : p ∈ all_paths m₁ m₂ :=
    (mem_all_paths _ _ p).mpr (Or.inl (mem_keys_of_lookup _ _ _ hs))
  have heMem : make_entry d m₁ m₂ cap p ∈ (all_paths m₁ m₂).map (make_entry d m₁ m₂ cap) :=
    List.mem_map_of_mem _ hmem
  obtain ⟨hsrc, hfail⟩ := make_entry_source_none d m₁ m₂ cap p u hs hc
  have hsrcHtml : sourceHtml (make_entry d m₁ m₂ cap p) = [missing_source_line] := by
    simp [sourceHtml, hsrc]
  refine ⟨_, heMem, rfl, hsrc, hfail, hsrcHtml, ?_⟩
  unfold report_lines
  apply List.mem_append.mpr
  left
  apply List.mem_append.mpr
  right
  rw [List.mem_flatten]
  refine ⟨entryHtml (make_entry d m₁ m₂ cap p), List.mem_map_of_mem _ heMem, ?_⟩
  simp [entryHtml, hsrcHtml]

theorem capture_failed_target_entry (d : String) (m₁ m₂ : UrlMap)
    (cap : String → String → Bool) (p u : String)
    (hs : lookupKV m₂ p = some u)
    (hc : cap u (d ++ "/" ++ get_path_slug p ++ "/target.png") = false) :
    ∃ e ∈ (all_paths m₁ m₂).map (make_entry d m₁ m₂ cap),
      e.path = p ∧ e.target = none ∧ e.target_failed = true ∧
      targetHtml e = [missing_target_line] ∧
      missing_target_line ∈ report_lines ((all_paths m₁ m₂).map (make_entry d m₁ m₂ cap)) := by
  have hmem : p ∈ all_paths m₁ m₂ :=
    (mem_all_paths _ _ p).mpr (Or.inr (mem_keys_of_lookup _ _ _ hs))
  have heMem : make_entry d m₁ m₂ cap p ∈ (all_paths m₁ m₂).map (make_entry d m₁ m₂ cap) :=
    List.mem_map_of_mem _ hmem
  obtain ⟨htgt, hfail⟩ := make_entry_target_none d m₁ m₂ cap p u hs hc
  have htgtHtml : targetHtml (make_entry d m₁ m₂ cap p) = [missing_target_line] := by
    simp [targetHtml, htgt]
  refine ⟨_, heMem, rfl, htgt, hfail, htgtHtml, ?_⟩
  unfold report_lines
  apply List.mem_append.mpr
  left
  apply List.mem_append.mpr
  right
  rw [List.mem_flatten]
  refine ⟨entryHtml (make_entry d m₁ m₂ cap p), List.mem_map_of_mem _ heMem, ?_⟩
  simp [entryHtml, htgtHtml]

/-- C3: a path whose capture fails on every retry — every attempt raising
an automation error makes the baseline capture return `False` (first
conjunct) — yields, in whichever orchestrator the run uses and on
whichever side the failing capture occurs, a `ReportEntry` with that
side's image path absent and that side's failure flag set, and the report
renders the "not available" marker for that side instead of an `<img>`
element. -/
theorem capture_failed_marks_entry_and_report (source_urls target_urls : List String)
    (cap : String → String → Bool) (p u : String) :
    (∀ attempts : Nat → AttemptOutcome,
        (∀ i, attempts i = AttemptOutcome.webDriverError) →
        take_fullpage_screenshot attempts = Except.ok false) ∧
    (lookupKV (buildMap source_urls) p = some u →
      cap u (REPORT_DIR ++ "/" ++ get_path_slug p ++ "/source.png") = false →
      ∃ e ∈ run_test source_urls target_urls cap,
        e.path = p ∧ e.source = none ∧ e.source_failed = true ∧
        sourceHtml e = [missing_source_line] ∧
        missing_source_line ∈ report_lines (run_test source_urls target_urls cap)) ∧
    (lookupKV (buildMap (effective_target_urls target_urls)) p = some u →
      cap u (REPORT_DIR ++ "/" ++ get_path_slug p ++ "/target.png") = false →
      ∃ e ∈ run_test source_urls target_urls cap,
        e.path = p ∧ e.target = none ∧ e.target_failed = true ∧
        targetHtml e = [missing_target_line] ∧
        missing_target_line ∈ report_lines (run_test source_urls target_urls cap)) ∧
    (lookupKV (buildMap source_urls) p = some u →
      cap u (REPORT_DIR2 ++ "/" ++ get_path_slug p ++ "/source.png") = false →
      ∃ e ∈ run_test2 source_urls target_urls cap,
        e.path = p ∧ e.source = none ∧ e.source_failed = true ∧
        sourceHtml e = [missing_source_line] ∧
        missing_source_line ∈ report_lines (run_test2 source_urls target_urls cap)) ∧
    (lookupKV (buildMap target_urls) p = some u →
      cap u (REPORT_DIR2 ++ "/" ++ get_path_slug p ++ "/target.png") = false →
      ∃ e ∈ run_test2 source_urls target_urls cap,
        e.path = p ∧ e.target = none ∧ e.target_failed = true ∧
        targetHtml e = [missing_target_line] ∧
        missing_target_line ∈ report_lines (run_test2 source_urls target_urls cap)) := by
  refine ⟨fun a ha => ?_, fun hs hc => ?_, fun hs hc => ?_, fun hs hc => ?_, fun hs hc => ?_⟩
  · simp [take_fullpage_screenshot, RETRY_COUNT, take_go, ha 1, ha 2]
  · exact capture_failed_source_entry REPORT_DIR (buildMap source_urls)
      (buildMap (effective_target_urls target_urls)) cap p u hs hc
  · exact capture_failed_target_entry REPORT_DIR (buildMap source_urls)
      (buildMap (effective_target_urls target_urls)) cap p u hs hc
  · exact capture_failed_source_entry REPORT_DIR2 (buildMap source_urls)
      (buildMap target_urls) cap p u hs hc
  · exact capture_failed_target_entry REPORT_DIR2 (buildMap source_urls)
      (buildMap target_urls) cap p u hs hc

/-- C3 witness: a concrete run whose capture function always reports
failure, exercising the baseline's target side at `/x` and the variant's
source side at the same path. -/
theorem capture_failed_marks_entry_and_report_witness :
    lookupKV (buildMap (effective_target_urls ["https://b.com/x"])) "/x"
      = some "https://b.com/x" ∧
    (∃ e ∈ run_test ["https://a.com/x"] ["https://b.com/x"] (fun _ _ => false),
      e.path = "/x" ∧ e.target = none ∧ e.target_failed = true ∧
      targetHtml e = [missing_target_line] ∧
      missing_target_line ∈ report_lines
        (run_test ["https://a.com/x"] ["https://b.com/x"] (fun _ _ => false))) ∧
    (∃ e ∈ run_test2 ["https://a.com/x"] ["https://b.com/x"] (fun _ _ => false),
      e.path = "/x" ∧ e.source = none ∧ e.source_failed = true ∧
      sourceHtml e = [missing_source_line] ∧
      missing_source_line ∈ report_lines
        (run_test2 ["https://a.com/x"] ["https://b.com/x"] (fun _ _ => false))) :=
  ⟨by decide,
    (capture_failed_marks_entry_and_report ["https://a.com/x"] ["https://b.com/x"]
      (fun _ _ => false) "/x" "https://b.com/x").2.2.1 (by decide) rfl,
    (capture_failed_marks_entry_and_report ["https://a.com/x"] ["https://b.com/x"]
      (fun _ _ => false) "/x" "https://a.com/x").2.2.2.1 (by decide) rfl⟩

/-- C8: for source URL paths `{A, B}` and target URL paths `{B, C}` with
`A`, `B`, `C` pairwise distinct, the reconciled path list is exactly
`{A, B, C}` in ascending order, `A` is found only in the source mapping,
`B` in both, and `C` only in the target mapping. -/
theorem path_reconciliation_cases (A B C uA uB uB2 uC : String)
    (hA : urlPath uA = A) (hB : urlPath uB = B) (hB2 : urlPath uB2 = B)
    (hC : urlPath uC = C) (hAB : A ≠ B) (hAC : A ≠ C) (hBC : B ≠ C) :
    (∀ x, x ∈ all_paths (buildMap [uA, uB]) (buildMap [uB2, uC]) ↔
      (x = A ∨ x = B ∨ x = C)) ∧
    (all_paths (buildMap [uA, uB]) (buildMap [uB2, uC])).Sorted pathLt ∧
    lookupKV (buildMap [uA, uB]) A = some uA ∧
    lookupKV (buildMap [uA, uB]) B = some uB ∧
    lookupKV (buildMap [uA, uB]) C = none ∧
    lookupKV (buildMap [uB2, uC]) A = none ∧
    lookupKV (buildMap [uB2, uC]) B = some uB2 ∧
    lookupKV (buildMap [uB2, uC]) C = some uC := by
  refine ⟨?_, sortedLt_all_paths _ _, ?_, ?_, ?_, ?_, ?_, ?_⟩
  · intro x
    rw [mem_all_paths, mem_keys_buildMap, mem_keys_buildMap]
    constructor
    · rintro (⟨v, hv, rfl⟩ | ⟨v, hv, rfl⟩)
      · simp only [List.mem_cons, List.not_mem_nil, or_false] at hv
        rcases hv with rfl | rfl
        · exact Or.inl hA
        · exact Or.inr (Or.inl hB)
      · simp only [List.mem_cons, List.not_mem_nil, or_false] at hv
        rcases hv with rfl | rfl
        · exact Or.inr (Or.inl hB2)
        · exact Or.inr (Or.inr hC)
    · rintro (rfl | rfl | rfl)
      · exact Or.inl ⟨uA, by simp, hA⟩
      · exact Or.inl ⟨uB, by simp, hB⟩
      · exact Or.inr ⟨uC, by simp, hC⟩
  · simp [buildMap, insertKV, lookupKV, hA, hB, hAB, Ne.symm hAB]
  · simp [buildMap, insertKV, lookupKV, hA, hB, hAB, Ne.symm hAB]
  · simp [buildMap, insertKV, lookupKV, hA, hB, hAB, hAC, hBC]
  · simp [buildMap, insertKV, lookupKV, hB2, hC, hBC, Ne.symm hAB, Ne.symm hAC]
  · simp [buildMap, insertKV, lookupKV, hB2, hC, hBC, Ne.symm hBC]
  · simp [buildMap, insertKV, lookupKV, hB2, hC, hBC, Ne.symm hBC]

/-- C8 witness: the reconciliation theorem applied to concrete URLs with
paths `/a`, `/b`, `/c`. -/
theorem path_reconciliation_cases_witness :
    urlPath "https://s.com/a" = "/a" ∧
    lookupKV (buildMap ["https://s.com/a", "https://s.com/b"]) "/a"
      = some "https://s.com/a" :=
  ⟨by decide,
    (path_reconciliation_cases "/a" "/b" "/c" "https://s.com/a" "https://s.com/b"
      "https://t.com/b" "https://t.com/c" (by decide) (by decide) (by decide)
      (by decide) (by decide) (by decide) (by decide)).2.2.1⟩

theorem make_entry_invariants (d : String) (m₁ m₂ : UrlMap)
    (cap : String → String → Bool) (p : String) :
    ((make_entry d m₁ m₂ cap p).source = none ↔
      (make_entry d m₁ m₂ cap p).source_failed = true) ∧
    ((make_entry d m₁ m₂ cap p).target = none ↔
      (make_entry d m₁ m₂ cap p).target_failed = true) ∧
    (lookupKV m₁ p = none →
      (make_entry d m₁ m₂ cap p).source = none ∧
      (make_entry d m₁ m₂ cap p).source_failed = true) ∧
    (lookupKV m₂ p = none →
      (make_entry d m₁ m₂ cap p).target = none ∧
      (make_entry d m₁ m₂ cap p).target_failed = true) := by
  refine ⟨?_, ?_, ?_, ?_⟩
  · cases hls : lookupKV m₁ p with
    | none => simp [make_entry, hls]
    | some u =>
      cases hcap : cap u (d ++ "/" ++ get_path_slug p ++ "/source.png") <;>
        simp [make_entry, hls, hcap]
  · cases hlt : lookupKV m₂ p with
    | none => simp [make_entry, hlt]
    | some u =>
      cases hcap : cap u (d ++ "/" ++ get_path_slug p ++ "/target.png") <;>
        simp [make_entry, hlt, hcap]
  · intro h
    simp [make_entry, h]
  · intro h
    simp [make_entry, h]

/-- C10: in every entry either orchestrator produces, the source image is
absent exactly when the source failure flag is set, likewise for the
target side; and a path missing from one side's mapping yields an entry
with that side absent and flagged failed, exactly as a failed capture
does. -/
theorem reportentry_none_iff_failed (source_urls target_urls : List String)
    (cap : String → String → Bool) :
    (∀ e ∈ run_test source_urls target_urls cap,
      (e.source = none ↔ e.source_failed = true) ∧
      (e.target = none ↔ e.target_failed = true) ∧
      (lookupKV (buildMap source_urls) e.path = none →
        e.source = none ∧ e.source_failed = true) ∧
      (lookupKV (buildMap (effective_target_urls target_urls)) e.path = none →
        e.target = none ∧ e.target_failed = true)) ∧
    (∀ e ∈ run_test2 source_urls target_urls cap,
      (e.source = none ↔ e.source_failed = true) ∧
      (e.target = none ↔ e.target_failed = true) ∧
      (lookupKV (buildMap source_urls) e.path = none →
        e.source = none ∧ e.source_failed = true) ∧
      (lookupKV (buildMap target_urls) e.path = none →
        e.target = none ∧ e.target_failed = true)) := by
  constructor
  · intro e he
    rcases List.mem_map.mp he with ⟨p, hp, rfl⟩
    rw [make_entry_path]
    exact make_entry_invariants _ _ _ cap p
  · intro e he
    rcases List.mem_map.mp he with ⟨p, hp, rfl⟩
    rw [make_entry_path]
    exact make_entry_invariants _ _ _ cap p

/-- C10 witness: a concrete run containing an entry whose target side is
missing from the target mapping. -/
theorem reportentry_none_iff_failed_witness :
    (ReportEntry.mk "x" "/x" (some "x/source.png") none false true
      ∈ run_test ["https://a.com/x"] ["https://b.com/y"] (fun _ _ => true)) ∧
    ((ReportEntry.mk "x" "/x" (some "x/source.png") none false true).source = none ↔
      (ReportEntry.mk "x" "/x" (some "x/source.png") none false true).source_failed = true) :=
  ⟨by decide,
    ((reportentry_none_iff_failed ["https://a.com/x"] ["https://b.com/y"]
      (fun _ _ => true)).1 _ (by decide)).1⟩

end Regression
